import Mathlib

/-!
Shallow embedding of the better-diagrams model-building and
relation-resolution pipeline (src/model.mjs, src/passes.mjs,
src/rendering.mjs, final snapshots of each file).

JavaScript heap objects are modelled by a `Store` (a list of
`DiagramObject` records) indexed by `ObjId`; a reference-valued JS
variable is a `JSVal`, which can hold an object reference, a plain
string, or `undefined`.  JS `Map`s are insertion-ordered association
lists, and `new Set(array)` is first-occurrence deduplication
(`jsSetOfList`).
-/

namespace BetterDiagrams

abbrev ObjId := Nat

/-- JS value that can appear in a relation endpoint or be passed to the
resolution callback: a `DiagramObject` reference, a string, or
`undefined`. -/
inductive JSVal where
  | obj (id : ObjId)
  | str (s : String)
  | undefV
deriving DecidableEq, Repr

/-- First-occurrence deduplication of a list: the JS idiom
`new Set(array)` (iterated as insertion order). -/
def jsSetOfList [BEq α] (l : List α) : List α :=
  l.foldl (fun acc x => if acc.contains x then acc else acc ++ [x]) []

/-- Type hierarchy from the type system module: `Type`, `CollectionType`
(with `ListType`/`SetType`/`OptionalType` subclasses), `VoidType`,
`NamedType`, `PrimitiveType`, `SourceType`. -/
inductive JType where
  | named (name : String)
  | primitive (name : String)
  | voidT
  | collection (item : JType)
  | listT (item : JType)
  | setT (item : JType)
  | optionalT (item : JType)
  | source (src : String)
deriving DecidableEq, Repr

/-- Delimiters of `SourceType.collectNames`:
the regex `\>|\<|\(|\)|\[|\]|\{|\}|,|\||\.` -/
def isSourceDelim (c : Char) : Bool :=
  c == '>' || c == '<' || c == '(' || c == ')' || c == '[' || c == ']' ||
  c == '\x7b' || c == '\x7d' || c == ',' || c == '|' || c == '.'

/-- `Type.collectNames()`: `NamedType` yields its name, `PrimitiveType`
and `VoidType` yield nothing, collection types delegate to the item,
`SourceType` splits its raw text on delimiters, drops empties and
builds a `Set`. -/
def JType.collectNames : JType → List String
  | .named n => [n]
  | .primitive _ => []
  | .voidT => []
  | .collection i => i.collectNames
  | .listT i => i.collectNames
  | .setT i => i.collectNames
  | .optionalT i => i.collectNames
  | .source src =>
      jsSetOfList ((src.split isSourceDelim).filter (fun s => s != ""))

/-- One `@tag` entry of a doc comment: `{name, params, value}`. -/
structure DocAttr where
  name : String
  params : List String
  value : String := ""
deriving DecidableEq, Repr

/-- `DocComment`: free text plus the list of attribute tags. -/
structure DocComment where
  content : String := ""
  attrs : List DocAttr := []
deriving DecidableEq, Repr

/-- `DocComment.findAttribute(name)`: first attribute with the given
name, or null. -/
def DocComment.findAttribute (doc : DocComment) (n : String) : Option DocAttr :=
  doc.attrs.find? (fun attr => n == attr.name)

/-- Class of a `DiagramObject`: `instanceof ClassObject` holds for
`classT` and `enumT` (EnumObject extends ClassObject). -/
inductive ObjTag where
  | classT
  | enumT
  | interfaceT
  | unresolvedT
  | packageT
deriving DecidableEq, Repr

def isClassLike : ObjTag → Bool
  | .classT => true
  | .enumT => true
  | _ => false

/-- `Argument(name, type)`. -/
structure ArgumentM where
  name : String
  type : JType
deriving DecidableEq, Repr

/-- `Attribute` class member: visibility, name, type, static flag, doc. -/
structure AttrMember where
  visibility : String
  name : String
  type : JType
  isStatic : Bool := false
  doc : DocComment := {}
deriving DecidableEq, Repr

/-- `Method` class member. -/
structure MethodM where
  visibility : String
  name : String
  args : List ArgumentM
  result : JType
  isAbstract : Bool := false
  isStatic : Bool := false
  doc : DocComment := {}
deriving DecidableEq, Repr

/-- `Constructor` class member. -/
structure CtorM where
  visibility : String
  name : String
  args : List ArgumentM
  doc : DocComment := {}
deriving DecidableEq, Repr

/-- `Constant` enum member. -/
structure ConstM where
  name : String
  doc : DocComment := {}
deriving DecidableEq, Repr

/-- A heap `DiagramObject`: name, package path, class tag, doc comment
and the member lists of the class-like subclasses (empty for the
others). -/
structure DiagramObject where
  name : String
  pkg : List String := []
  tag : ObjTag
  doc : DocComment := {}
  attributes : List AttrMember := []
  methods : List MethodM := []
  constructors : List CtorM := []
  constants : List ConstM := []
deriving DecidableEq, Repr

/-- The JS heap of `DiagramObject`s; an `ObjId` is an index into it. -/
abbrev Store := List DiagramObject

inductive RelKind where
  | inheritance
  | implementsK
  | associative
deriving DecidableEq, Repr

/-- A `Relation` record.  The base class holds `a`, `b` and the
`visual` options bag; `AssociativeRelation` adds the label fields with
defaults `name = roleA = roleB = ""`, `headA = ""`, `headB = ">"`,
`multiplicityA = multiplicityB = ""`. -/
structure Relation where
  kind : RelKind
  a : JSVal
  b : JSVal
  name : String := ""
  roleA : String := ""
  roleB : String := ""
  headA : String := ""
  headB : String := ">"
  multiplicityA : String := ""
  multiplicityB : String := ""
  visual : List (String × Bool) := []
deriving DecidableEq, Repr

/-- `new AssociativeRelation(a, b)` with all constructor defaults. -/
def mkAssociative (a b : JSVal) : Relation :=
  { kind := .associative, a := a, b := b }

/-- A `Diagram` together with the heap its object table points into:
`objects` is the insertion-ordered name-to-object `Map` (holding
references), `relations` the ordered relation list. -/
structure Diagram where
  store : Store
  objects : List (String × ObjId)
  relations : List Relation
deriving DecidableEq, Repr

def Diagram.hasObject (d : Diagram) (n : String) : Bool :=
  d.objects.any (fun p => p.1 == n)

def Diagram.getObjId (d : Diagram) (n : String) : Option ObjId :=
  (d.objects.find? (fun p => p.1 == n)).map (fun p => p.2)

/-- `diagram.getObject(name)` as a JS value: the object reference, or
`undefined` when the name is absent. -/
def Diagram.getObjectVal (d : Diagram) (n : String) : JSVal :=
  match d.getObjId n with
  | some id => .obj id
  | none => .undefV

/-- `diagram.addRelation(relation)`: push onto the relation list. -/
def Diagram.addRelation (d : Diagram) (r : Relation) : Diagram :=
  { d with relations := d.relations ++ [r] }

/-- JS property access `v.name`: the name field for an object
reference, `undefined` (`none`) for strings and `undefined`. -/
def jsNameOf (st : Store) : JSVal → Option String
  | .obj id => (st[id]?).map (fun o => o.name)
  | .str _ => none
  | .undefV => none

/-- `v instanceof UnresolvedObject`. -/
def isUnresolvedVal (st : Store) : JSVal → Bool
  | .obj id =>
      match st[id]? with
      | some o => o.tag == .unresolvedT
      | none => false
  | .str _ => false
  | .undefV => false

/-- The value `this.a.name` that `Relation.resolve` passes to its
lookup callback: the placeholder's name as a JS string value. -/
def jsNameVal (st : Store) (v : JSVal) : JSVal :=
  match jsNameOf st v with
  | some s => .str s
  | none => .undefV

/-- The callback `resolveObjects` (final snapshot) installs: it treats
its argument as an object, reading `object.name` (which is `undefined`
when the argument is actually a string), checks the table, warns and
returns the argument itself on failure, and returns the table object on
success. -/
def lookupV3 (d : Diagram) (v : JSVal) : JSVal × List String :=
  match jsNameOf d.store v with
  | some s =>
      if d.hasObject s then (d.getObjectVal s, [])
      else (v, ["Unable to resolve object " ++ s])
  | none => (v, ["Unable to resolve object undefined"])

/-- `Relation.resolve(lookup)` (model.mjs final snapshot): each endpoint
that is an `UnresolvedObject` is replaced by `lookup(endpoint.name)`;
warnings of the two lookups are collected in order. -/
def resolveWith (st : Store) (lookup : JSVal → JSVal × List String)
    (r : Relation) : Relation × List String :=
  ({ r with
      a := if isUnresolvedVal st r.a then (lookup (jsNameVal st r.a)).1 else r.a,
      b := if isUnresolvedVal st r.b then (lookup (jsNameVal st r.b)).1 else r.b },
   (if isUnresolvedVal st r.a then (lookup (jsNameVal st r.a)).2 else []) ++
   (if isUnresolvedVal st r.b then (lookup (jsNameVal st r.b)).2 else []))

def catLists : List (List α) → List α
  | [] => []
  | l :: ls => l ++ catLists ls

/-- `resolveObjects(diagram)` (passes.mjs final snapshot): resolve every
relation with the `lookupV3` callback; the object table is never
modified, so each lookup reads the original table.  Returns the updated
diagram and the emitted warnings in order. -/
def resolveObjects (d : Diagram) : Diagram × List String :=
  let results := d.relations.map (resolveWith d.store (lookupV3 d))
  ({ d with relations := results.map (fun p => p.1) },
   catLists (results.map (fun p => p.2)))

mutual
/-- A `PackageObject` node of the package tree: its name and the
insertion-ordered child `Map`, whose values are either plain diagram
objects (leaves, by reference) or nested `PackageObject`s. -/
inductive PkgTree where
  | node (name : String) (children : List (String × PkgChild))
/-- A child of a `PackageObject`: a plain diagram object reference or a
nested package. -/
inductive PkgChild where
  | objC (id : ObjId)
  | pkgC (t : PkgTree)
end

def PkgTree.rootName : PkgTree → String
  | .node nm _ => nm

/-- `Map.set(k, v)`: overwrite in place when the key exists (keeping
its position), append otherwise. -/
def mapSetChild (m : List (String × PkgChild)) (k : String) (v : PkgChild) :
    List (String × PkgChild) :=
  if m.any (fun p => p.1 == k) then
    m.map (fun p => if p.1 == k then (p.1, v) else p)
  else m ++ [(k, v)]

mutual
/-- `PackageObject.collectObjects()`: iterated
`new Set([...objects, ...child.collectObjects()])` over the children;
a plain object contributes `{this}`.  The iterated set union with
first-occurrence order equals first-occurrence deduplication of the
concatenated child results. -/
def PkgTree.collectObjects : PkgTree → List ObjId
  | .node _ children => jsSetOfList (collectChildren children)
/-- Concatenation of the `collectObjects()` results of all children. -/
def collectChildren : List (String × PkgChild) → List ObjId
  | [] => []
  | c :: rest => PkgChild.collectObjects c.2 ++ collectChildren rest
/-- `collectObjects()` of one child. -/
def PkgChild.collectObjects : PkgChild → List ObjId
  | .objC id => [id]
  | .pkgC t => PkgTree.collectObjects t
end

def objName (st : Store) (id : ObjId) : Option String :=
  (st[id]?).map (fun o => o.name)

def objPkg (st : Store) (id : ObjId) : List String :=
  ((st[id]?).map (fun o => o.pkg)).getD []

/-- `PackageObject.insert(path, object)`: path descent with
auto-vivification of intermediate `PackageObject`s; `none` models the
dynamic fault of calling `insert` on a non-package child (and of an
invalid object reference, which cannot arise from a diagram table). -/
def PkgTree.insertAt (st : Store) : List String → PkgTree → ObjId → Option PkgTree
  | [], .node nm children, id =>
      match objName st id with
      | some key => some (.node nm (mapSetChild children key (.objC id)))
      | none => none
  | p :: rest, .node nm children, id =>
      let children1 :=
        if children.any (fun c => c.1 == p) then children
        else children ++ [(p, PkgChild.pkgC (.node p []))]
      match ((children1.find? (fun c => c.1 == p)).map (fun c => c.2) : Option PkgChild) with
      | some (.pkgC t) =>
          (PkgTree.insertAt st rest t id).map
            (fun t1 => .node nm (mapSetChild children1 p (.pkgC t1)))
      | some (.objC _) => none
      | none => none

/-- `PackageObject.get(path)`: `objects.get(path[0])`, returned directly
for a singleton path, recursed into otherwise; `none` models `undefined`
results and the dynamic fault of `.get` on a missing or leaf child. -/
def PkgTree.getPath : List String → PkgTree → Option PkgChild
  | [], _ => none
  | [p], .node _ children => (children.find? (fun c => c.1 == p)).map (fun c => c.2)
  | p :: rest, .node _ children =>
      match ((children.find? (fun c => c.1 == p)).map (fun c => c.2) : Option PkgChild) with
      | some (.pkgC t) => PkgTree.getPath rest t
      | _ => none

/-- Longest common prefix of two package paths: the loop counting
matching leading segments followed by `commonPrefix.splice(0, count)`
(which keeps exactly the first `count` elements). -/
def listCommonPfx : List String → List String → List String
  | a :: as, b :: bs => if a == b then a :: listCommonPfx as bs else []
  | _, _ => []

/-- The common-prefix accumulation loop of `buildPackageTree`:
`commonPrefix` starts as null (`none`) and is seeded by the first
object's package. -/
def commonPkgPfx (st : Store) (objs : List (String × ObjId)) :
    Option (List String) :=
  objs.foldl
    (fun acc ni =>
      match acc with
      | none => some (objPkg st ni.2)
      | some cp => some (listCommonPfx cp (objPkg st ni.2)))
    none

/-- `buildPackageTree(diagram)` (passes.mjs final snapshot).  With zero
objects `commonPrefix` remains null and `commonPrefix.join(".")` throws
a TypeError, modelled as `none`. -/
def buildPackageTree (d : Diagram) : Option PkgTree :=
  match commonPkgPfx d.store d.objects with
  | none => none
  | some cp =>
      d.objects.foldl
        (fun acc ni =>
          acc.bind (fun root =>
            PkgTree.insertAt d.store ((objPkg d.store ni.2).drop cp.length) root ni.2))
        (some (PkgTree.node (String.intercalate "." cp) []))

/-- A root held by a `View`: a plain diagram object (by reference) or a
package-tree node.  Freshly built tree nodes are reference-distinct
from every table object, which the type distinction reflects. -/
inductive ViewRoot where
  | objR (id : ObjId)
  | pkgR (t : PkgTree)

/-- `root.collectObjects()` for a view root. -/
def ViewRoot.collect : ViewRoot → List ObjId
  | .objR id => [id]
  | .pkgR t => t.collectObjects

/-- A `View`: the set of roots (`this.objects`) and the
`showAdjacent` flag set by `withAdjacent()`. -/
structure View where
  roots : List ViewRoot
  showAdjacent : Bool

/-- The `rendered` set of `planRender`: the concatenated
`collectObjects()` closures of all roots, made into a `Set`. -/
def renderedSet (v : View) : List ObjId :=
  jsSetOfList (v.roots.foldl (fun acc r => acc ++ ViewRoot.collect r) [])

/-- `rendered.has(value)`: identity membership, so strings and
`undefined` are never members. -/
def memRendered (rendered : List ObjId) : JSVal → Bool
  | .obj id => rendered.contains id
  | .str _ => false
  | .undefV => false

/-- Result of `planRender()`: `{objects, adjacent, relations}`. -/
structure RenderPlan where
  objects : List ViewRoot
  adjacent : List JSVal
  relations : List Relation

/-- One iteration of the relation loop of `planRender`. -/
def planStep (adj : Bool) (rendered : List ObjId)
    (acc : List JSVal × List Relation) (rel : Relation) :
    List JSVal × List Relation :=
  if memRendered rendered rel.a && memRendered rendered rel.b then
    (acc.1, acc.2 ++ [rel])
  else if adj && memRendered rendered rel.a then
    (acc.1 ++ [rel.b], acc.2 ++ [rel])
  else acc

/-- `View.planRender()` (rendering.mjs): compute the rendered closure,
select relations, collect adjacent B endpoints, and return the View's
own root set as `objects`. -/
def planRender (d : Diagram) (v : View) : RenderPlan :=
  let rendered := renderedSet v
  let step := d.relations.foldl (planStep v.showAdjacent rendered) ([], [])
  { objects := v.roots, adjacent := step.1, relations := step.2 }

/-- One alternative `(\*|[0-9]+)` of the multiplicity pattern, over
the token's characters. -/
def multPart (l : List Char) : Bool :=
  l == ['*'] || (l.length > 0 && l.all Char.isDigit)

/-- Split a token at the first occurrence of `..`. -/
def splitFirstDots : List Char → Option (List Char × List Char)
  | [] => none
  | '.' :: '.' :: rest => some ([], rest)
  | c :: rest => (splitFirstDots rest).map (fun p => (c :: p.1, p.2))

/-- The anchored regex `^(\*|[0-9]+)(\.\.(\*|[0-9]+))?$`: either one
multiplicity part, or two separated by the first `..` (the first part
is dot-free, so greedy matching stops exactly there). -/
def MULTIPLICITY (s : String) : Bool :=
  multPart s.toList ||
    match splitFirstDots s.toList with
    | some p => multPart p.1 && multPart p.2
    | none => false

/-- `param.charAt(i)`: the one-character string at index `i`, or the
empty string out of range (including `charAt(-1)`). -/
def jsCharAt (s : String) (i : Int) : String :=
  if i < 0 then ""
  else
    match s.toList.get? i.toNat with
    | some c => String.mk [c]
    | none => ""

/-- `Map.get`-style push for the `inferred` role map (keyed by object
reference): append the role to an existing entry in place, or append a
fresh entry. -/
def mapPush (m : List (ObjId × List String)) (k : ObjId) (v : String) :
    List (ObjId × List String) :=
  if m.any (fun p => p.1 == k) then
    m.map (fun p => if p.1 == k then (p.1, p.2 ++ [v]) else p)
  else m ++ [(k, [v])]

/-- `visual[key] = true`: JS object property assignment. -/
def visualSet (m : List (String × Bool)) (k : String) : List (String × Bool) :=
  if m.any (fun p => p.1 == k) then
    m.map (fun p => if p.1 == k then (p.1, true) else p)
  else m ++ [(k, true)]

/-- `param.startsWith("$")`. -/
def jsStartsWithDollar (s : String) : Bool :=
  match s.toList with
  | c :: _ => c == '$'
  | [] => false

/-- `param.substr(1)`: the token without its first character. -/
def jsSubstrFromOne (s : String) : String :=
  String.mk (s.toList.drop 1)

/-- One iteration of the token loop of `parseAssociation` (final
snapshot): `$`-flags, then dash tokens (arrow heads, switching from
the A side to the B side), then multiplicities, then role/name
tokens. -/
def parseAssocStep (st : Relation × Bool) (param : String) : Relation × Bool :=
  let relation := st.1
  let isStart := st.2
  if jsStartsWithDollar param then
    ({ relation with visual := visualSet relation.visual (jsSubstrFromOne param) }, isStart)
  else if param.toList.contains '-' then
    match param.toList.findIdx? (fun c => c == '-') with
    | some idx =>
        ({ relation with
            headA := jsCharAt param ((idx : Int) - 1),
            headB := jsCharAt param ((idx : Int) + 1) }, false)
    | none => (relation, isStart)
  else if MULTIPLICITY param then
    if isStart then ({ relation with multiplicityA := param }, isStart)
    else ({ relation with multiplicityB := param }, isStart)
  else
    if isStart then
      if relation.roleA == "" then ({ relation with roleA := param }, isStart)
      else ({ relation with name := param }, isStart)
    else ({ relation with roleB := param }, isStart)

/-- `parseAssociation(object, diagram, attr)` (final snapshot): the
last parameter names the target object (looked up in the table,
`undefined` when absent or when there are no parameters), the remaining
parameters are folded left to right over `parseAssocStep` starting from
a fresh `AssociativeRelation` with `isStart = true`. -/
def parseAssociation (d : Diagram) (objId : ObjId) (attr : DocAttr) : Relation :=
  let target : JSVal :=
    match attr.params.getLast? with
    | some t => d.getObjectVal t
    | none => .undefV
  ((attr.params.dropLast).foldl parseAssocStep
    (mkAssociative (.obj objId) target, true)).1

/-- `DEFAULT_INFER_ASSOCIATIONS_CONFIG`-shaped resolved config. -/
structure InferConfig where
  merge : Bool
  maxRoles : Int
deriving DecidableEq, Repr

def DEFAULT_INFER_ASSOCIATIONS_CONFIG : InferConfig :=
  { merge := false, maxRoles := -1 }

/-- The caller-supplied config object, which may omit either field. -/
structure InferConfigOpt where
  merge : Option Bool := none
  maxRoles : Option Int := none
deriving DecidableEq, Repr

/-- `Object.assign({...DEFAULT_INFER_ASSOCIATIONS_CONFIG}, partial or {})`. -/
def mkConfig (p : InferConfigOpt) : InferConfig :=
  { merge := p.merge.getD DEFAULT_INFER_ASSOCIATIONS_CONFIG.merge,
    maxRoles := p.maxRoles.getD DEFAULT_INFER_ASSOCIATIONS_CONFIG.maxRoles }

/-- The per-attribute body of `inferAssociations`: an explicit `@assoc`
on the attribute adds its parsed relation; `@noassoc` skips the
attribute; otherwise every collected type name present in the table
records the attribute's name as a role against the target object. -/
def collectRefsStep (objId : ObjId)
    (st : Diagram × List (ObjId × List String)) (attrib : AttrMember) :
    Diagram × List (ObjId × List String) :=
  let acc := st.1
  let inferred := st.2
  match attrib.doc.findAttribute "@assoc" with
  | some attr => (acc.addRelation (parseAssociation acc objId attr), inferred)
  | none =>
      if (attrib.doc.findAttribute "@noassoc").isSome then (acc, inferred)
      else
        let refs := attrib.type.collectNames
        (acc,
         refs.foldl
           (fun inf ref =>
             match acc.getObjId ref with
             | some refObject => mapPush inf refObject attrib.name
             | none => inf)
           inferred)

/-- The emission loop over the `inferred` map: with `merge`, one
relation per target whose B role is the joined role list unless the
role count exceeds `maxRoles` (with `-1` unbounded); without `merge`,
one relation per recorded role. -/
def emitStep (cfg : InferConfig) (objId : ObjId) (acc : Diagram)
    (entry : ObjId × List String) : Diagram :=
  if cfg.merge then
    let relation := mkAssociative (.obj objId) (.obj entry.1)
    let relation :=
      if cfg.maxRoles == -1 || (entry.2.length : Int) ≤ cfg.maxRoles then
        { relation with roleB := String.intercalate ", " entry.2 }
      else relation
    acc.addRelation relation
  else
    entry.2.foldl
      (fun a role =>
        a.addRelation { mkAssociative (.obj objId) (.obj entry.1) with roleB := role })
      acc

/-- Step 1 of the object loop of `inferAssociations`: an explicit
object-level `@assoc` adds its parsed relation. -/
def inferObjectExplicit (acc : Diagram) (id : ObjId) (obj : DiagramObject) :
    Diagram :=
  match obj.doc.findAttribute "@assoc" with
  | some attr => acc.addRelation (parseAssociation acc id attr)
  | none => acc

/-- Steps 2-4 of the object loop of `inferAssociations`: `@noassoc`
skips member-level inference (`continue`), otherwise a class-like
object collects roles from its attributes and emits the `inferred`
map. -/
def inferObjectMembers (cfg : InferConfig) (acc1 : Diagram) (id : ObjId)
    (obj : DiagramObject) : Diagram :=
  if (obj.doc.findAttribute "@noassoc").isSome then acc1
  else if isClassLike obj.tag then
    match obj.attributes.foldl (collectRefsStep id) (acc1, []) with
    | (acc2, inferred) => inferred.foldl (emitStep cfg id) acc2
  else acc1

/-- Body of the object loop of `inferAssociations` (final snapshot):
the explicit step followed by the member-level steps.  An id that
misses the store (impossible for a diagram table) is a no-op. -/
def inferStepObject (cfg : InferConfig) (acc : Diagram) (ni : String × ObjId) :
    Diagram :=
  match acc.store[ni.2]? with
  | none => acc
  | some obj => inferObjectMembers cfg (inferObjectExplicit acc ni.2 obj) ni.2 obj

/-- `inferAssociations(diagram, partialConfig)` (final snapshot): merge
the config with its defaults and run the object loop; the object table
is never modified, so iterating the original table is the live
iteration of the JS `Map`. -/
def inferAssociations (d : Diagram) (p : InferConfigOpt) : Diagram :=
  let config := mkConfig p
  d.objects.foldl (inferStepObject config) d

/-!
Concrete diagrams used as scenario inputs by the claim theorems and
witnesses below.
-/

/-- A registered class object named `B` with no members. -/
def objB : DiagramObject := { name := "B", tag := .classT }

/-- An `UnresolvedObject` placeholder carrying the name `B` (it is in
the heap but not in any object table). -/
def objUnresB : DiagramObject := { name := "B", tag := .unresolvedT }

/-- Diagram whose table holds `B` and whose single relation still
points at the placeholder `UnresolvedObject("B")` as its A endpoint. -/
def dResolve : Diagram :=
  { store := [objB, objUnresB],
    objects := [("B", 0)],
    relations := [{ kind := .inheritance, a := .obj 1, b := .obj 0, headB := "" }] }

/-- Class `A` whose doc comment carries
`@assoc 1 roleA relName *-> 0..* roleB $flat B`. -/
def objAssocA : DiagramObject :=
  { name := "A", tag := .classT,
    doc := { attrs := [{ name := "@assoc",
                         params := ["1", "roleA", "relName", "*->", "0..*", "roleB", "$flat", "B"] }] } }

/-- Diagram with `A` (carrying the `@assoc` tag) and `B`. -/
def dAssoc : Diagram :=
  { store := [objAssocA, objB], objects := [("A", 0), ("B", 1)], relations := [] }

/-- Class `A` with two attributes `roleX` and `roleY`, both of type
`B`. -/
def objMergeA : DiagramObject :=
  { name := "A", tag := .classT,
    attributes := [
      { visibility := "-", name := "roleX", type := .named "B" },
      { visibility := "-", name := "roleY", type := .named "B" }] }

/-- Diagram for the merge boundary scenario. -/
def dMerge : Diagram :=
  { store := [objMergeA, objB], objects := [("A", 0), ("B", 1)], relations := [] }

/-- The `@assoc B` tag used in the `@noassoc` scenario. -/
def attrNoassocScenario : DocAttr := { name := "@assoc", params := ["B"] }

/-- Class `A` carrying both `@assoc B` and `@noassoc`, plus an
attribute whose type references `B`. -/
def objNoassocA : DiagramObject :=
  { name := "A", tag := .classT,
    doc := { attrs := [attrNoassocScenario, { name := "@noassoc", params := [] }] },
    attributes := [{ visibility := "-", name := "x", type := .named "B" }] }

/-- Diagram for the `@noassoc` scenario. -/
def dNoassoc : Diagram :=
  { store := [objNoassocA, objB], objects := [("A", 0), ("B", 1)], relations := [] }

/-- Diagram with zero objects. -/
def dEmpty : Diagram := { store := [], objects := [], relations := [] }

/-- Diagram with three objects of packages `["com","a"]`, `["com","b"]`
and `["com","a","x"]`. -/
def dPkg : Diagram :=
  { store := [{ name := "O1", pkg := ["com", "a"], tag := .classT },
              { name := "O2", pkg := ["com", "b"], tag := .classT },
              { name := "O3", pkg := ["com", "a", "x"], tag := .classT }],
    objects := [("O1", 0), ("O2", 1), ("O3", 2)],
    relations := [] }

/-- Relation `B -> C` of the view scenario. -/
def relBC : Relation := { kind := .associative, a := .obj 0, b := .obj 1 }

/-- Relation `C -> B` of the view scenario. -/
def relCB : Relation := { kind := .associative, a := .obj 1, b := .obj 0 }

/-- Diagram with objects `B`, `C` and the two relations `B -> C` and
`C -> B`. -/
def dView : Diagram :=
  { store := [objB, { name := "C", tag := .classT }],
    objects := [("B", 0), ("C", 1)],
    relations := [relBC, relCB] }

/-- View over the single plain root `B` with `withAdjacent()` set. -/
def vAdj : View := { roots := [.objR 0], showAdjacent := true }

/-- Diagram with the single class object `O`. -/
def dSingle : Diagram :=
  { store := [{ name := "O", tag := .classT }], objects := [("O", 0)], relations := [] }

/-- A package-tree node containing the single object `O` of `dSingle`,
as `buildPackageTree` would produce for it. -/
def tSingle : PkgTree := .node "" [("O", .objC 0)]

/-!
Helper lemmas.
-/

theorem mapEqSelf {l : List α} {f : α → α} (h : ∀ x ∈ l, f x = x) : l.map f = l := by
  induction l with
  | nil => rfl
  | cons x xs ih =>
      simp only [List.map_cons]
      rw [h x (by simp), ih (fun y hy => h y (by simp [hy]))]

theorem catListsNil {ls : List (List α)} (h : ∀ l ∈ ls, l = []) : catLists ls = [] := by
  induction ls with
  | nil => rfl
  | cons l rest ih =>
      unfold catLists
      rw [h l (by simp), ih (fun l2 hl => h l2 (by simp [hl]))]
      rfl

/-- A placeholder endpoint always hands its own name, as a string
value, to the lookup callback. -/
theorem jsNameVal_of_unres {st : Store} {v : JSVal}
    (h : isUnresolvedVal st v = true) : ∃ s, jsNameVal st v = .str s := by
  cases v with
  | obj id =>
      cases hg : st[id]? with
      | none => simp [isUnresolvedVal, hg] at h
      | some o => exact ⟨o.name, by simp [jsNameVal, jsNameOf, hg]⟩
  | str s => simp [isUnresolvedVal] at h
  | undefV => simp [isUnresolvedVal] at h

/-- The final-snapshot callback maps a string argument to itself (with
a warning), since a string has no `name` property. -/
theorem lookupV3_str (d : Diagram) (s : String) :
    lookupV3 d (.str s) = (.str s, ["Unable to resolve object undefined"]) := rfl

theorem resolveWith_a (st : Store) (lookup : JSVal → JSVal × List String) (r : Relation) :
    ((resolveWith st lookup r).1).a =
      if isUnresolvedVal st r.a then (lookup (jsNameVal st r.a)).1 else r.a := rfl

theorem resolveWith_b (st : Store) (lookup : JSVal → JSVal × List String) (r : Relation) :
    ((resolveWith st lookup r).1).b =
      if isUnresolvedVal st r.b then (lookup (jsNameVal st r.b)).1 else r.b := rfl

/-- After one resolution step neither endpoint is an
`UnresolvedObject` any more (placeholders were replaced by name
strings, other endpoints were untouched). -/
theorem resolveWith_noUnres (d : Diagram) (r : Relation) :
    isUnresolvedVal d.store ((resolveWith d.store (lookupV3 d) r).1).a = false ∧
    isUnresolvedVal d.store ((resolveWith d.store (lookupV3 d) r).1).b = false := by
  constructor
  · rw [resolveWith_a]
    by_cases ha : isUnresolvedVal d.store r.a = true
    · obtain ⟨s, hs⟩ := jsNameVal_of_unres ha
      rw [ha, if_pos rfl, hs, lookupV3_str]
      rfl
    · rw [if_neg ha]
      exact Bool.not_eq_true _ ▸ ha
  · rw [resolveWith_b]
    by_cases hb : isUnresolvedVal d.store r.b = true
    · obtain ⟨s, hs⟩ := jsNameVal_of_unres hb
      rw [hb, if_pos rfl, hs, lookupV3_str]
      rfl
    · rw [if_neg hb]
      exact Bool.not_eq_true _ ▸ hb

/-- `Relation.resolve` does nothing on a relation without placeholder
endpoints, whatever the callback. -/
theorem resolveWith_of_noUnres (st : Store) (lookup : JSVal → JSVal × List String)
    (r : Relation) (ha : isUnresolvedVal st r.a = false)
    (hb : isUnresolvedVal st r.b = false) :
    resolveWith st lookup r = (r, []) := by
  unfold resolveWith
  rw [ha, hb]
  simp

theorem resolveObjects_store (d : Diagram) : (resolveObjects d).1.store = d.store := rfl

theorem resolveObjects_objects (d : Diagram) : (resolveObjects d).1.objects = d.objects := rfl

/-- Every relation of the output of `resolveObjects` is free of
placeholder endpoints. -/
theorem resolveObjects_noUnres (d : Diagram) {r : Relation}
    (hr : r ∈ (resolveObjects d).1.relations) :
    isUnresolvedVal d.store r.a = false ∧ isUnresolvedVal d.store r.b = false := by
  unfold resolveObjects at hr
  simp only [List.map_map, List.mem_map] at hr
  obtain ⟨r0, _, hr0⟩ := hr
  rw [← hr0]
  exact resolveWith_noUnres d r0

/-- On a diagram whose relations are already free of placeholder
endpoints, the Resolution Pass returns the diagram unchanged and emits
no warnings. -/
theorem resolveObjects_of_noUnres (d : Diagram)
    (h : ∀ r ∈ d.relations,
      isUnresolvedVal d.store r.a = false ∧ isUnresolvedVal d.store r.b = false) :
    resolveObjects d = (d, []) := by
  unfold resolveObjects
  have h1 : ∀ r ∈ d.relations, resolveWith d.store (lookupV3 d) r = (r, []) :=
    fun r hr => resolveWith_of_noUnres _ _ r (h r hr).1 (h r hr).2
  have e1 : (d.relations.map (resolveWith d.store (lookupV3 d))).map (fun p => p.1) =
      d.relations := by
    rw [List.map_map]
    exact mapEqSelf (fun r hr => by simp [Function.comp, h1 r hr])
  have e2 : catLists ((d.relations.map (resolveWith d.store (lookupV3 d))).map (fun p => p.2)) =
      ([] : List String) := by
    refine catListsNil ?_
    intro l hl
    rw [List.map_map] at hl
    obtain ⟨r, hr, hrl⟩ := List.mem_map.mp hl
    rw [← hrl]
    simp [Function.comp, h1 r hr]
  dsimp only
  rw [e1, e2]

/-- Membership in the deduplicated list built by `new Set(array)`
agrees with membership in the array. -/
theorem jsSetOfList_mem [BEq α] [LawfulBEq α] (l : List α) (a : α) :
    a ∈ jsSetOfList l ↔ a ∈ l := by
  unfold jsSetOfList
  suffices h : ∀ acc : List α,
      (a ∈ l.foldl (fun acc x => if acc.contains x then acc else acc ++ [x]) acc ↔
        a ∈ acc ∨ a ∈ l) by
    simpa using h []
  induction l with
  | nil => intro acc; simp
  | cons x xs ih =>
      intro acc
      simp only [List.foldl_cons]
      by_cases hx : acc.contains x = true
      · rw [if_pos hx, ih acc]
        have hxa : x ∈ acc := by simpa using hx
        simp only [List.mem_cons]
        constructor
        · rintro (h | h)
          exacts [Or.inl h, Or.inr (Or.inr h)]
        · rintro (h | h | h)
          exacts [Or.inl h, Or.inl (by rw [h]; exact hxa), Or.inr h]
      · rw [if_neg hx, ih (acc ++ [x])]
        simp only [List.mem_append, List.mem_singleton, List.mem_cons]
        tauto

/-- Boolean form of `jsSetOfList_mem`. -/
theorem jsSetOfList_contains [BEq α] [LawfulBEq α] (l : List α) (a : α) :
    (jsSetOfList l).contains a = l.contains a := by
  simp [jsSetOfList_mem]

/-- Characterization of the relation loop of `planRender`: starting
from any accumulator, it appends the B endpoints of the
adjacency-included relations to the first component and the selected
relations to the second. -/
theorem planStep_foldl (adj : Bool) (rendered : List ObjId) (rels : List Relation) :
    ∀ acc : List JSVal × List Relation,
      rels.foldl (planStep adj rendered) acc =
        (acc.1 ++ (rels.filter (fun rel =>
            !(memRendered rendered rel.a && memRendered rendered rel.b) &&
            (adj && memRendered rendered rel.a))).map (fun r => r.b),
         acc.2 ++ rels.filter (fun rel =>
            (memRendered rendered rel.a && memRendered rendered rel.b) ||
            (adj && memRendered rendered rel.a))) := by
  induction rels with
  | nil => intro acc; simp
  | cons rel rest ih =>
      intro acc
      by_cases h1 : (memRendered rendered rel.a && memRendered rendered rel.b) = true
      · have step : planStep adj rendered acc rel = (acc.1, acc.2 ++ [rel]) := by
          unfold planStep
          rw [if_pos h1]
        simp only [List.foldl_cons, step, ih, List.filter_cons, h1]
        simp
      · by_cases h2 : (adj && memRendered rendered rel.a) = true
        · have step : planStep adj rendered acc rel = (acc.1 ++ [rel.b], acc.2 ++ [rel]) := by
            unfold planStep
            rw [if_neg h1, if_pos h2]
          simp only [List.foldl_cons, step, ih, List.filter_cons, h1, h2]
          simp
        · have step : planStep adj rendered acc rel = acc := by
            unfold planStep
            rw [if_neg h1, if_neg h2]
          simp only [List.foldl_cons, step, ih, List.filter_cons, h1, h2]
          simp

/-- `planRender().objects` is the View's own root set. -/
theorem planRender_objects (d : Diagram) (v : View) :
    (planRender d v).objects = v.roots := rfl

/-- The relations selected by `planRender`: those with both endpoints
in the rendered closure, plus, with adjacency on, those with the A
endpoint in the closure. -/
theorem planRender_relations (d : Diagram) (v : View) :
    (planRender d v).relations = d.relations.filter (fun rel =>
      (memRendered (renderedSet v) rel.a && memRendered (renderedSet v) rel.b) ||
      (v.showAdjacent && memRendered (renderedSet v) rel.a)) := by
  unfold planRender
  dsimp only
  rw [planStep_foldl]
  simp

/-- The adjacent objects collected by `planRender`: the B endpoints of
the adjacency-included relations. -/
theorem planRender_adjacent (d : Diagram) (v : View) :
    (planRender d v).adjacent = (d.relations.filter (fun rel =>
      !(memRendered (renderedSet v) rel.a && memRendered (renderedSet v) rel.b) &&
      (v.showAdjacent && memRendered (renderedSet v) rel.a))).map (fun r => r.b) := by
  unfold planRender
  dsimp only
  rw [planStep_foldl]
  simp

/-- Frame relation between two diagram states: the heap and the object
table agree and the relation list of the second extends the first by
newly appended `AssociativeRelation`s only. -/
def FrameApp (d1 d2 : Diagram) : Prop :=
  d2.store = d1.store ∧ d2.objects = d1.objects ∧
  ∃ new, d2.relations = d1.relations ++ new ∧ ∀ r ∈ new, r.kind = RelKind.associative

theorem frameApp_refl (d : Diagram) : FrameApp d d :=
  ⟨rfl, rfl, [], by simp, by simp⟩

theorem frameApp_trans {d1 d2 d3 : Diagram} (h12 : FrameApp d1 d2)
    (h23 : FrameApp d2 d3) : FrameApp d1 d3 := by
  obtain ⟨s12, o12, n12, hn12, ha12⟩ := h12
  obtain ⟨s23, o23, n23, hn23, ha23⟩ := h23
  refine ⟨s23.trans s12, o23.trans o12, n12 ++ n23, ?_, ?_⟩
  · rw [hn23, hn12, List.append_assoc]
  · intro r hr
    rcases List.mem_append.mp hr with h | h
    exacts [ha12 r h, ha23 r h]

theorem frameApp_addRelation (d : Diagram) {r : Relation}
    (h : r.kind = RelKind.associative) : FrameApp d (d.addRelation r) :=
  ⟨rfl, rfl, [r], rfl, by simpa using h⟩

/-- Folding a per-element transform that only appends associative
relations itself only appends associative relations. -/
theorem foldl_frameApp {β : Type} {f : Diagram → β → Diagram} (l : List β)
    (h : ∀ acc x, FrameApp acc (f acc x)) :
    ∀ acc, FrameApp acc (l.foldl f acc) := by
  induction l with
  | nil => intro acc; exact frameApp_refl acc
  | cons x xs ih =>
      intro acc
      exact frameApp_trans (h acc x) (ih (f acc x))

/-- Variant of `foldl_frameApp` for folds that also thread auxiliary
state (the `inferred` role map). -/
theorem foldl_frameApp_pair {β γ : Type} {f : Diagram × γ → β → Diagram × γ}
    (l : List β) (h : ∀ acc x, FrameApp acc.1 (f acc x).1) :
    ∀ acc : Diagram × γ, FrameApp acc.1 (l.foldl f acc).1 := by
  induction l with
  | nil => intro acc; exact frameApp_refl acc.1
  | cons x xs ih =>
      intro acc
      exact frameApp_trans (h acc x) (ih (f acc x))

/-- Every token-loop step of `parseAssociation` keeps the relation an
`AssociativeRelation`. -/
theorem parseAssocStep_kind (st : Relation × Bool) (p : String) :
    (parseAssocStep st p).1.kind = st.1.kind := by
  unfold parseAssocStep
  dsimp only
  repeat' split
  all_goals rfl

/-- `parseAssociation` always builds an `AssociativeRelation`. -/
theorem parseAssociation_kind (d : Diagram) (objId : ObjId) (attr : DocAttr) :
    (parseAssociation d objId attr).kind = RelKind.associative := by
  unfold parseAssociation
  suffices h : ∀ (l : List String) (st : Relation × Bool),
      (l.foldl parseAssocStep st).1.kind = st.1.kind by
    rw [h]
    rfl
  intro l
  induction l with
  | nil => intro st; rfl
  | cons p rest ih =>
      intro st
      rw [List.foldl_cons, ih (parseAssocStep st p), parseAssocStep_kind]

theorem collectRefsStep_frame (objId : ObjId)
    (st : Diagram × List (ObjId × List String)) (attrib : AttrMember) :
    FrameApp st.1 (collectRefsStep objId st attrib).1 := by
  unfold collectRefsStep
  split
  · exact frameApp_addRelation _ (parseAssociation_kind _ _ _)
  · split
    · exact frameApp_refl _
    · exact frameApp_refl _

theorem emitStep_frame (cfg : InferConfig) (objId : ObjId) (acc : Diagram)
    (entry : ObjId × List String) : FrameApp acc (emitStep cfg objId acc entry) := by
  unfold emitStep
  split
  · exact frameApp_addRelation _ (by split <;> rfl)
  · exact foldl_frameApp entry.2
      (fun acc2 role => frameApp_addRelation acc2 rfl) acc

theorem inferObjectExplicit_frame (acc : Diagram) (id : ObjId)
    (obj : DiagramObject) : FrameApp acc (inferObjectExplicit acc id obj) := by
  unfold inferObjectExplicit
  split
  · exact frameApp_addRelation _ (parseAssociation_kind _ _ _)
  · exact frameApp_refl acc

theorem inferObjectMembers_frame (cfg : InferConfig) (acc1 : Diagram)
    (id : ObjId) (obj : DiagramObject) :
    FrameApp acc1 (inferObjectMembers cfg acc1 id obj) := by
  unfold inferObjectMembers
  split
  · exact frameApp_refl _
  · split
    · exact frameApp_trans
        (foldl_frameApp_pair obj.attributes
          (fun a x => collectRefsStep_frame id a x) (acc1, []))
        (foldl_frameApp _ (fun a e => emitStep_frame cfg id a e) _)
    · exact frameApp_refl _

theorem inferStepObject_frame (cfg : InferConfig) (acc : Diagram)
    (ni : String × ObjId) : FrameApp acc (inferStepObject cfg acc ni) := by
  unfold inferStepObject
  split
  · exact frameApp_refl acc
  · exact frameApp_trans (inferObjectExplicit_frame acc ni.2 _)
      (inferObjectMembers_frame cfg _ ni.2 _)

theorem inferAssociations_frameApp (d : Diagram) (p : InferConfigOpt) :
    FrameApp d (inferAssociations d p) :=
  foldl_frameApp d.objects (fun acc ni => inferStepObject_frame (mkConfig p) acc ni) d

theorem memRendered_jsSetOfList (l : List ObjId) (x : JSVal) :
    memRendered (jsSetOfList l) x = memRendered l x := by
  cases x <;> simp [memRendered, jsSetOfList_contains, jsSetOfList_mem]

/-- JS set equality between a render plan's `objects` set and a set of
table objects: every root is one of the listed objects and vice versa
(a freshly built package node is never identical to a table object). -/
def rootSetEqObjects (roots : List ViewRoot) (ids : List ObjId) : Prop :=
  (∀ r ∈ roots, ∃ i ∈ ids, r = ViewRoot.objR i) ∧
  (∀ i ∈ ids, ViewRoot.objR i ∈ roots)

/-- The property claimed of `planRender` for a single root: its
`objects` output equals `root.collectObjects()` as a set, and a
relation is selected iff both endpoints are in that closure or, with
adjacency on, its A endpoint is. -/
def claimedPlanRenderSpec (d : Diagram) (root : ViewRoot) (adj : Bool) : Prop :=
  rootSetEqObjects (planRender d { roots := [root], showAdjacent := adj }).objects
    (ViewRoot.collect root) ∧
  ∀ rel ∈ d.relations,
    (rel ∈ (planRender d { roots := [root], showAdjacent := adj }).relations ↔
      ((memRendered (ViewRoot.collect root) rel.a &&
        memRendered (ViewRoot.collect root) rel.b) = true ∨
       (adj = true ∧ memRendered (ViewRoot.collect root) rel.a = true)))

/-!
Claim theorems.
-/

/-- C1 (code bug evaluated at the failing input): on a diagram whose
table holds `B` while a relation endpoint is the placeholder
`UnresolvedObject("B")`, the Resolution Pass does NOT link the endpoint
to the table object: `Relation.resolve` hands the placeholder's name
string to a callback that expects an object, so the lookup reads
`undefined` as the name, warns `Unable to resolve object undefined`
even though `B` is registered, and replaces the endpoint with the bare
string `"B"` instead of the table object `B` or a stub object. -/
theorem resolveObjects_misresolves_at_input :
    (resolveObjects dResolve).1.relations =
      [{ kind := .inheritance, a := .str "B", b := .obj 0, headB := "" }] ∧
    (resolveObjects dResolve).2 = ["Unable to resolve object undefined"] := by
  constructor <;> rfl

/-- C9: running the Resolution Pass a second time on the output of a
first run is a no-op: the diagram is returned unchanged (no endpoint
changes) and no warnings are emitted (after the first run no endpoint
is an `UnresolvedObject` any more). -/
theorem resolveObjects_second_run_noop (d : Diagram) :
    resolveObjects (resolveObjects d).1 = ((resolveObjects d).1, []) :=
  resolveObjects_of_noUnres (resolveObjects d).1
    (fun _ hr => resolveObjects_noUnres d hr)

/-- C2 (counterexample): the claim that `planRender().objects` equals
`root.collectObjects()` as a set fails for a package-tree root: for the
one-object diagram `dSingle` viewed through the package node `tSingle`,
the plan's `objects` is the singleton root set holding the package node
itself, not the closure `{O}`. -/
theorem planRender_objects_claim_cex :
    ¬ claimedPlanRenderSpec dSingle (ViewRoot.pkgR tSingle) false := by
  intro h
  obtain ⟨⟨h1, _⟩, _⟩ := h
  obtain ⟨i, _, heq⟩ := h1 (ViewRoot.pkgR tSingle) (by simp [planRender_objects])
  exact ViewRoot.noConfusion heq

/-- C2 (amended): `planRender().objects` is the View's own root set
`[root]` (not the closure); the rendered closure does equal
`root.collectObjects()` as a set, and it is the closure that selects
relations: a relation is kept iff both endpoints lie in it, or, with
adjacency enabled, its A endpoint lies in it. -/
theorem planRender_objects_and_selection (d : Diagram) (root : ViewRoot) (adj : Bool) :
    (planRender d { roots := [root], showAdjacent := adj }).objects = [root] ∧
    (∀ id : ObjId,
      (renderedSet { roots := [root], showAdjacent := adj }).contains id =
        (ViewRoot.collect root).contains id) ∧
    (planRender d { roots := [root], showAdjacent := adj }).relations =
      d.relations.filter (fun rel =>
        (memRendered (ViewRoot.collect root) rel.a &&
         memRendered (ViewRoot.collect root) rel.b) ||
        (adj && memRendered (ViewRoot.collect root) rel.a)) := by
  have hmem : ∀ x, memRendered (renderedSet { roots := [root], showAdjacent := adj }) x =
      memRendered (ViewRoot.collect root) x := by
    intro x
    have h0 : renderedSet { roots := [root], showAdjacent := adj } =
        jsSetOfList ([] ++ ViewRoot.collect root) := rfl
    rw [h0, List.nil_append]
    exact memRendered_jsSetOfList _ x
  refine ⟨rfl, fun id => hmem (JSVal.obj id), ?_⟩
  rw [planRender_relations]
  simp only [hmem]

/-- C6: adjacency asymmetry of `planRender`.  For a relation whose A
endpoint alone is rendered and a view with `withAdjacent()` set, the
relation is kept and its B endpoint is reported adjacent; a relation
whose B endpoint alone is rendered is dropped, whatever the adjacency
flag. -/
theorem planRender_adjacency_asymmetry (d : Diagram) (v : View) (r r2 : Relation)
    (hr : r ∈ d.relations) (_hr2 : r2 ∈ d.relations) :
    (v.showAdjacent = true →
      memRendered (renderedSet v) r.a = true →
      memRendered (renderedSet v) r.b = false →
      r ∈ (planRender d v).relations ∧ r.b ∈ (planRender d v).adjacent) ∧
    (memRendered (renderedSet v) r2.a = false →
      memRendered (renderedSet v) r2.b = true →
      r2 ∉ (planRender d v).relations) := by
  constructor
  · intro hadj ha hb
    constructor
    · rw [planRender_relations]
      exact List.mem_filter.mpr ⟨hr, by simp [ha, hadj]⟩
    · rw [planRender_adjacent]
      exact List.mem_map.mpr ⟨r, List.mem_filter.mpr ⟨hr, by simp [ha, hb, hadj]⟩, rfl⟩
  · intro ha hb hmem
    rw [planRender_relations] at hmem
    have hcond := (List.mem_filter.mp hmem).2
    simp [ha] at hcond

/-- Witness for C6 at a concrete diagram: in `dView` with relations
`B -> C` and `C -> B`, viewing `{B}` with adjacency keeps `B -> C`
and reports `C` adjacent, while `C -> B` is dropped. -/
theorem planRender_adjacency_asymmetry_witness :
    (relBC ∈ (planRender dView vAdj).relations ∧
     relBC.b ∈ (planRender dView vAdj).adjacent) ∧
    relCB ∉ (planRender dView vAdj).relations := by
  have h := planRender_adjacency_asymmetry dView vAdj relBC relCB
    (by decide) (by decide)
  exact ⟨h.1 rfl (by decide) (by decide), h.2 (by decide) (by decide)⟩

/-- C3: the `@assoc` micro-grammar scenario.  For class `A` with doc
tag `@assoc 1 roleA relName *-> 0..* roleB $flat B` and registered
object `B`, the inference pass adds exactly one `AssociativeRelation`
from `A` to `B` with `multiplicityA = "1"`, `roleA = "roleA"`,
`name = "relName"`, `headA = "*"` (left of the dash), `headB = ">"`
(right of the dash), `multiplicityB = "0..*"`, `roleB = "roleB"` and
the visual flag `flat` set. -/
theorem inferAssociations_assoc_grammar_scenario :
    (inferAssociations dAssoc {}).relations =
      [{ kind := RelKind.associative, a := JSVal.obj 0, b := JSVal.obj 1,
         name := "relName", roleA := "roleA", roleB := "roleB",
         headA := "*", headB := ">",
         multiplicityA := "1", multiplicityB := "0..*",
         visual := [("flat", true)] }] := by
  rfl

/-- C4: the merge boundary.  With `merge = true, maxRoles = 1` the
object with two attributes `roleX`, `roleY` of type `B` yields exactly
one relation with the empty (suppressed) B role; with `maxRoles = -1`
exactly one relation with B role `"roleX, roleY"`. -/
theorem inferAssociations_merge_boundary :
    (inferAssociations dMerge { merge := some true, maxRoles := some 1 }).relations =
      [{ kind := RelKind.associative, a := JSVal.obj 0, b := JSVal.obj 1, roleB := "" }] ∧
    (inferAssociations dMerge { merge := some true, maxRoles := some (-1) }).relations =
      [{ kind := RelKind.associative, a := JSVal.obj 0, b := JSVal.obj 1,
         roleB := "roleX, roleY" }] := by
  constructor <;> rfl

/-- C5: an object whose doc carries both `@assoc` and `@noassoc`
contributes exactly the explicit parsed relation and no
attribute-derived relations (`inferAssociations` folds this per-object
step over the table). -/
theorem inferStepObject_noassoc_keeps_explicit (cfg : InferConfig) (acc : Diagram)
    (n : String) (id : ObjId) (obj : DiagramObject) (attr : DocAttr)
    (hobj : acc.store[id]? = some obj)
    (hassoc : obj.doc.findAttribute "@assoc" = some attr)
    (hnoassoc : (obj.doc.findAttribute "@noassoc").isSome = true) :
    inferStepObject cfg acc (n, id) = acc.addRelation (parseAssociation acc id attr) := by
  unfold inferStepObject
  rw [show acc.store[(n, id).2]? = some obj from hobj]
  show inferObjectMembers cfg (inferObjectExplicit acc (n, id).2 obj) (n, id).2 obj =
    acc.addRelation (parseAssociation acc id attr)
  unfold inferObjectExplicit
  rw [hassoc]
  unfold inferObjectMembers
  rw [hnoassoc]
  simp

/-- Witness for C5 at the concrete diagram `dNoassoc`. -/
theorem inferStepObject_noassoc_keeps_explicit_witness :
    inferStepObject (mkConfig {}) dNoassoc ("A", 0) =
      dNoassoc.addRelation (parseAssociation dNoassoc 0 attrNoassocScenario) :=
  inferStepObject_noassoc_keeps_explicit (mkConfig {}) dNoassoc "A" 0
    objNoassocA attrNoassocScenario rfl rfl rfl

/-- C7 (code bug evaluated at the failing input): on a diagram with
zero objects `buildPackageTree` does not return an empty-prefix root:
`commonPrefix` stays null and `commonPrefix.join(".")` faults
(modelled by `none`). -/
theorem buildPackageTree_empty_faults : buildPackageTree dEmpty = none := rfl

/-- C8: for objects with packages `["com","a"]`, `["com","b"]` and
`["com","a","x"]`, the computed common prefix labels the root `"com"`,
and `tree.get(["a"]).collectObjects()` is exactly the set of the two
objects `O1` and `O3` (ids 0 and 2). -/
theorem buildPackageTree_concrete_scenario :
    (buildPackageTree dPkg).map PkgTree.rootName = some "com" ∧
    ((buildPackageTree dPkg).bind (PkgTree.getPath ["a"])).map PkgChild.collectObjects =
      some [0, 2] := by
  constructor <;> rfl

/-- C10 (frame property): `inferAssociations` leaves the heap (and so
every object's member lists) and the object table unchanged and only
appends newly constructed `AssociativeRelation`s after the pre-existing
relations, whose order is preserved. -/
theorem inferAssociations_only_appends (d : Diagram) (p : InferConfigOpt) :
    (inferAssociations d p).store = d.store ∧
    (inferAssociations d p).objects = d.objects ∧
    ∃ new, (inferAssociations d p).relations = d.relations ++ new ∧
      ∀ r ∈ new, r.kind = RelKind.associative :=
  inferAssociations_frameApp d p

end BetterDiagrams
